import Mathlib

/-!
Verification development for the identifier-resolution engine of the
sav-agent-bridge server (src/server.js).

The engine is embedded shallowly:
* `Js` models JavaScript JSON-like values; `undefined` and `null` are
  conflated into `Js.null`, matching how the source only distinguishes them
  through truthiness and nullish coalescing.
* external HTTP adapters are oracles collected in an `Env` record; each
  adapter call is logged in a `Call` trace, and a thrown transport error is
  `Except.error ()`.
* `M A` is the writer-plus-exception semantics of the async code: a value is
  the list of adapter calls performed together with either a result or a
  thrown error.  `Promise.all` is modelled by `promiseAll`, which runs every
  task (all calls fire), and rejects when any task rejected.
-/

inductive Js where
  | null : Js
  | bool (b : Bool) : Js
  | num (n : Int) : Js
  | str (s : String) : Js
  | arr (elems : List Js) : Js
  | obj (fields : List (String × Js)) : Js

/-- JavaScript truthiness of a value (NaN is not modelled). -/
def Js.truthy : Js → Bool
  | .null => false
  | .bool b => b
  | .num n => n != 0
  | .str s => s != ""
  | .arr _ => true
  | .obj _ => true

/-- Whether the value is null (or undefined, which is conflated with null). -/
def Js.isNull : Js → Bool
  | .null => true
  | _ => false

/-- Strict equality of a value with a string literal, as in v === "FR". -/
def Js.eqStr : Js → String → Bool
  | .str s, t => s == t
  | _, _ => false

/-- Property access v?.k: the field of an object, null otherwise. -/
def Js.get : Js → String → Js
  | .obj fields, k =>
      match fields.find? (fun p => p.1 == k) with
      | some p => p.2
      | none => .null
  | _, _ => .null

/-- An array value as a Lean list; anything else is the empty list, as in
Array.isArray(v) ? v : []. -/
def Js.toList : Js → List Js
  | .arr l => l
  | _ => []

/-- Template-literal stringification of a value.  Arrays and objects are
approximated (no claim depends on them being interpolated). -/
def Js.toStr : Js → String
  | .null => "null"
  | .bool b => if b then "true" else "false"
  | .num n => toString n
  | .str s => s
  | .arr _ => ""
  | .obj _ => "[object Object]"

/-- The JavaScript a || b operator on values. -/
def jsOr (a b : Js) : Js := if a.truthy then a else b

/-- The JavaScript a ?? b (nullish coalescing) operator on values. -/
def jsNullish (a b : Js) : Js := if a.isNull then b else a

/-- The identifiers object produced by extraction, with the four fields read
by resolveTrackingLogic.  A missing or null field is none; the source reads
each with identifiers?.field ?? null. -/
structure Identifiers where
  email : Option String
  phone : Option String
  order_number : Option String
  tracking_number : Option String

/-- Truthiness of an optional string field: present and non-empty. -/
def strOpt : Option String → Option String
  | none => none
  | some s => if s = "" then none else some s

/-- One external adapter call performed by the engine. -/
inductive Call where
  | searchOrders (term : String)
  | fetchOrder (id : String)
  | findParcels (orderNumber : String)
  | track (trackingNumber : String)
deriving DecidableEq

/-- Semantics of an async computation: the adapter calls it performed and
either its value or the error it threw. -/
def M (A : Type) : Type := List Call × Except Unit A

def M.pureM {A : Type} (a : A) : M A := ([], Except.ok a)

def M.bindM {A B : Type} (x : M A) (f : A → M B) : M B :=
  match x with
  | (l, Except.ok a) => (l ++ (f a).1, (f a).2)
  | (l, Except.error e) => (l, Except.error e)

def M.ofExcept {A : Type} : Except Unit A → M A
  | Except.ok a => ([], Except.ok a)
  | Except.error e => ([], Except.error e)

/-- The external systems: WooCommerce order search and fetch, Sendcloud
parcel search and tracking, plus the TRACKING_META_KEYS configuration. -/
structure Env where
  searchOrders : String → Except Unit (List Js)
  fetchOrderById : String → Except Unit Js
  findParcels : String → Except Unit Js
  trackByNumber : String → Except Unit Js
  metaKeys : List String

/-- wooFetchOrdersBySearch: one search call; a non-2xx response is already an
empty list in the source, a fetch rejection is an error from the oracle. -/
def wooFetchOrdersBySearch (env : Env) (term : String) : M (List Js) :=
  M.bindM ([Call.searchOrders term], Except.ok ()) (fun _ =>
    M.ofExcept (env.searchOrders term))

/-- wooFetchOrderById: one fetch call; a non-2xx response is Js.null. -/
def wooFetchOrderById (env : Env) (id : String) : M Js :=
  M.bindM ([Call.fetchOrder id], Except.ok ()) (fun _ =>
    M.ofExcept (env.fetchOrderById id))

/-- sendcloudFindParcelByOrderNumber: one parcel-search call; non-2xx throws. -/
def sendcloudFindParcelByOrderNumber (env : Env) (order_number : String) : M Js :=
  M.bindM ([Call.findParcels order_number], Except.ok ()) (fun _ =>
    M.ofExcept (env.findParcels order_number))

/-- sendcloudTrackByTrackingNumber: one tracking call; non-2xx throws. -/
def sendcloudTrackByTrackingNumber (env : Env) (tn : String) : M Js :=
  M.bindM ([Call.track tn], Except.ok ()) (fun _ =>
    M.ofExcept (env.trackByNumber tn))

/-- The tracking-number candidate found in order metadata: the loop in
wooLookupBySearchTerm keeps the value of the last configured key that has a
match with a truthy value. -/
def metaTn (keys : List String) (meta : List Js) : Js :=
  keys.foldl (fun tn k =>
    match meta.find? (fun m => (m.get "key").eqStr k && (m.get "value").truthy) with
    | some hit => hit.get "value"
    | none => tn) Js.null

/-- Result object of wooLookupBySearchTerm. -/
structure WooLookupRes where
  order_number : Js
  tracking_number : Js
  country : Js

/-- wooLookupBySearchTerm from the source. -/
def wooLookupBySearchTerm (env : Env) (term : String) : M WooLookupRes :=
  M.bindM (wooFetchOrdersBySearch env term) (fun orders =>
    match orders with
    | [] => M.pureM ⟨Js.null, Js.null, Js.null⟩
    | latest :: _ =>
        let meta := (jsOr (latest.get "meta_data") (Js.arr [])).toList
        let tn := metaTn env.metaKeys meta
        let country := jsOr (jsOr ((latest.get "shipping").get "country")
          ((latest.get "billing").get "country")) (Js.str "FR")
        M.pureM ⟨latest.get "id", tn, country⟩)

/-- pickTrackingNumberFromParcelsResponse from the source: a nullish-coalescing
chain over the keys parcels, results, data, then a singleton of parcel. -/
def pickTrackingNumberFromParcelsResponse (payload : Js) : Js :=
  let candidates := jsNullish (payload.get "parcels") (jsNullish (payload.get "results")
    (jsNullish (payload.get "data")
      (if (payload.get "parcel").truthy then Js.arr [payload.get "parcel"] else Js.arr [])))
  match candidates.toList with
  | [] => Js.null
  | first :: _ =>
      jsOr (first.get "tracking_number") (jsOr ((first.get "tracking").get "tracking_number") Js.null)

/-- The country the engine attributes to an order: shipping country, else
billing country. -/
def jsCountry (wooOrder : Js) : Js :=
  jsOr ((wooOrder.get "shipping").get "country") ((wooOrder.get "billing").get "country")

/-- checkInternational from the source. -/
def checkInternational (wooOrder : Js) : Bool :=
  if !wooOrder.truthy then false
  else (jsCountry wooOrder).truthy && !((jsCountry wooOrder).eqStr "FR")

/-- The logs array as the Js value stored in result objects. -/
def jsLogs (logs : List String) : Js := Js.arr (logs.map Js.str)

/-- Result object: isInternational true. -/
def intlRes (logs : List String) : Js :=
  Js.obj [("isInternational", Js.bool true), ("logs", jsLogs logs)]

/-- Result object of a successful resolution. -/
def resObj (logs : List String) (data tn woo : Js) : Js :=
  Js.obj [("logs", jsLogs logs), ("data", data), ("tracking_number", tn), ("woo_order", woo)]

/-- Result object of an order found without any tracking number. -/
def procRes (logs : List String) (woo : Js) : Js :=
  Js.obj [("logs", jsLogs logs), ("data", Js.null), ("tracking_number", Js.null),
    ("woo_order", woo), ("status", Js.str "processing_no_tracking")]

/-- Result object of the final not-found fallthrough. -/
def notFoundRes (logs : List String) : Js :=
  Js.obj [("logs", jsLogs logs), ("data", Js.null), ("tracking_number", Js.null),
    ("woo_order", Js.null)]

/-- tryResolveViaWooSearch from the source: returns Js.null for no match,
otherwise one of the result objects. -/
def tryResolveViaWooSearch (env : Env) (term : String) (logs : List String) : M Js :=
  M.bindM (wooLookupBySearchTerm env term) (fun woo =>
    if !woo.order_number.truthy then M.pureM Js.null
    else if woo.country.truthy && !(woo.country.eqStr "FR") then M.pureM (intlRes logs)
    else
      M.bindM (wooFetchOrderById env woo.order_number.toStr) (fun wooOrderFull =>
        M.bindM (if woo.tracking_number.truthy then M.pureM woo.tracking_number
          else M.bindM (sendcloudFindParcelByOrderNumber env woo.order_number.toStr)
            (fun parcels => M.pureM (pickTrackingNumberFromParcelsResponse parcels)))
          (fun tn =>
            if tn.truthy then
              M.bindM (sendcloudTrackByTrackingNumber env tn.toStr) (fun tracking =>
                M.pureM (resObj logs tracking tn wooOrderFull))
            else M.pureM (procRes logs wooOrderFull))))

/-- Everything non-digit stripped from the phone, as phone.replace of non
digit characters by the empty string. -/
def digitsOnly (s : String) : String := String.mk (s.data.filter Char.isDigit)

/-- String prefix test, as JavaScript startsWith. -/
def jsStartsWith (s pre : String) : Bool := pre.data.isPrefixOf s.data

/-- JavaScript substring from index k. -/
def jsSubstringFrom (s : String) (k : Nat) : String := String.mk (s.data.drop k)

/-- Insertion into the candidate Set: iteration order is insertion order and
duplicates collapse. -/
def addCand (l : List String) (c : String) : List String :=
  if c ∈ l then l else l ++ [c]

/-- The candidate set built in the phone branch of resolveTrackingLogic from
the digits-only string. -/
def phoneCandidates (rawDigits : String) : List String :=
  let l := addCand [] rawDigits
  let l := addCand l ("+" ++ rawDigits)
  let l := addCand l ("00" ++ rawDigits)
  let l := if jsStartsWith rawDigits "33" && rawDigits.data.length > 9 then
      addCand l ("0" ++ jsSubstringFrom rawDigits 2) else l
  let l := if jsStartsWith rawDigits "0" && rawDigits.data.length == 10 then
      addCand (addCand l ("33" ++ jsSubstringFrom rawDigits 1)) ("+33" ++ jsSubstringFrom rawDigits 1)
    else l
  let l := if jsStartsWith rawDigits "32" && rawDigits.data.length > 8 then
      addCand l ("0" ++ jsSubstringFrom rawDigits 2) else l
  let l := if jsStartsWith rawDigits "41" && rawDigits.data.length > 8 then
      addCand l ("0" ++ jsSubstringFrom rawDigits 2) else l
  l

/-- The candidate generator applied to the raw phone field. -/
def genCandidates (phone : String) : List String := phoneCandidates (digitsOnly phone)

/-- A settled promise: its calls happened, its outcome (value or rejection)
is recorded without aborting anything. -/
def settleTask {A : Type} (t : M A) : M (Except Unit A) := (t.1, Except.ok t.2)

/-- Launch every task: all calls of all tasks fire, outcomes are collected. -/
def collectTasks {A : Type} : List (M A) → M (List (Except Unit A))
  | [] => M.pureM []
  | t :: ts =>
      M.bindM (settleTask t) (fun r =>
        M.bindM (collectTasks ts) (fun rs => M.pureM (r :: rs)))

/-- Combine settled outcomes as Promise.all does: all values in task order,
or a rejection when any task rejected. -/
def allOk {A : Type} : List (Except Unit A) → Except Unit (List A)
  | [] => Except.ok []
  | Except.ok v :: rest =>
      match allOk rest with
      | Except.ok vs => Except.ok (v :: vs)
      | Except.error e => Except.error e
  | Except.error e :: _ => Except.error e

/-- Promise.all over a list of tasks. -/
def promiseAll {A : Type} (ts : List (M A)) : M (List A) :=
  M.bindM (collectTasks ts) (fun settled => ([], allOk settled))

/-- The order-number step of resolveTrackingLogic; some result means the
chain terminated there. -/
def orderStep (env : Env) (ids : Identifiers) (logs : List String) : M (Option Js) :=
  match strOpt ids.order_number with
  | none => M.pureM none
  | some onum =>
      M.bindM (wooFetchOrderById env onum) (fun wooOrder =>
        if checkInternational wooOrder then M.pureM (some (intlRes logs))
        else
          M.bindM (sendcloudFindParcelByOrderNumber env onum) (fun parcels =>
            let tn := pickTrackingNumberFromParcelsResponse parcels
            if tn.truthy then
              M.bindM (sendcloudTrackByTrackingNumber env tn.toStr) (fun tracking =>
                M.pureM (some (resObj logs tracking tn wooOrder)))
            else M.pureM none))

/-- The email step of resolveTrackingLogic. -/
def emailStep (env : Env) (ids : Identifiers) (logs : List String) : M (Option Js) :=
  match strOpt ids.email with
  | none => M.pureM none
  | some em =>
      M.bindM (tryResolveViaWooSearch env em logs) (fun r =>
        M.pureM (if r.truthy then some r else none))

/-- The phone fan-out step of resolveTrackingLogic: probe every candidate via
Promise.all, then take the first result that is not strictly null. -/
def phoneStep (env : Env) (ids : Identifiers) (logs : List String) : M (Option Js) :=
  match strOpt ids.phone with
  | none => M.pureM none
  | some p =>
      M.bindM (promiseAll ((genCandidates p).map (fun c => tryResolveViaWooSearch env c logs)))
        (fun results => M.pureM (results.find? (fun r => !r.isNull)))

/-- The tracking-number fallback step of resolveTrackingLogic, including the
final not-found object when the field is absent. -/
def trackingStep (env : Env) (ids : Identifiers) (logs : List String) : M Js :=
  match strOpt ids.tracking_number with
  | none => M.pureM (notFoundRes logs)
  | some tIn =>
      M.bindM (sendcloudTrackByTrackingNumber env tIn) (fun tracking =>
        let dest := tracking.get "destination"
        if dest.truthy && !(dest.eqStr "FR") && !(dest.eqStr "FRANCE") then
          M.pureM (intlRes logs)
        else M.pureM (resObj logs tracking (Js.str tIn) Js.null))

/-- The chain after the order-number step: email, then phone, then tracking. -/
def resolveAfterOrder (env : Env) (ids : Identifiers) (logs : List String) : M Js :=
  M.bindM (emailStep env ids logs) (fun r1 =>
    match r1 with
    | some r => M.pureM r
    | none =>
        M.bindM (phoneStep env ids logs) (fun r2 =>
          match r2 with
          | some r => M.pureM r
          | none => trackingStep env ids logs))

/-- resolveTrackingLogic from the source.  The logs value starts empty and is
never appended to anywhere in the source, so every step receives []. -/
def resolveTrackingLogic (env : Env) (ids : Identifiers) : M Js :=
  M.bindM (orderStep env ids []) (fun r0 =>
    match r0 with
    | some r => M.pureM r
    | none => resolveAfterOrder env ids [])

/-- Message of one history entry, as the template of simplifyContext. -/
def statusEntryMsg (s : Js) : String :=
  " - " ++ (jsOr (s.get "carrier_message") (s.get "status")).toStr

/-- The history array computed by simplifyContext before joining: guarded by
statuses being a non-empty array, then slice of the last three, mapped to the
message template, then reversed. -/
def historyList (trackingData : Js) : List String :=
  match trackingData.get "statuses" with
  | Js.arr l =>
      if l.length > 0 then ((l.drop (l.length - 3)).map statusEntryMsg).reverse else []
  | _ => []

/-- Last-entry status used as a fallback for the current status. -/
def lastHistoryStatus (trackingData : Js) : Js :=
  match trackingData.get "statuses" with
  | Js.arr l =>
      if l.isEmpty then Js.null
      else jsOr ((l.getLastD Js.null).get "carrier_message") ((l.getLastD Js.null).get "status")
  | _ => Js.null

/-- simplifyContext from the source, restricted to its pure computation over
the extraction result and the resolution result. -/
def simplifyContext (iaResult resolutionResult : Js) : Js :=
  let firstName :=
    if (((resolutionResult.get "woo_order").get "billing").get "first_name").truthy then
      ((resolutionResult.get "woo_order").get "billing").get "first_name"
    else if (iaResult.get "customer_first_name").truthy then iaResult.get "customer_first_name"
    else Js.str "Client"
  let trackingData := resolutionResult.get "data"
  let trackingNumber := resolutionResult.get "tracking_number"
  let trackingLink := jsOr (trackingData.get "carrier_tracking_url")
    (jsOr (trackingData.get "sendcloud_tracking_url")
      (if trackingNumber.truthy then
        Js.str ("https://www.laposte.fr/outils/suivre-vos-envois?code=" ++ trackingNumber.toStr)
      else Js.null))
  let currentStatus := jsOr ((trackingData.get "status").get "message")
    (jsOr (trackingData.get "carrier_status")
      (jsOr (lastHistoryStatus trackingData) (Js.str "En cours de traitement")))
  Js.obj [("first_name", firstName), ("tracking_number", trackingNumber),
    ("tracking_link", trackingLink), ("current_status", currentStatus),
    ("history", Js.str (String.intercalate "\n" (historyList trackingData))),
    ("is_found", Js.bool trackingNumber.truthy)]

/-- Follows the words of the specification for the parcels-payload extractor:
try the keys parcels, results, data and the singular parcel in fixed priority
and take the first that yields a non-empty list, then extract the direct
tracking_number field of the first entry, else the nested one, else null. -/
def pickBySpecFirstPlausibleList (payload : Js) : Js :=
  let options := [payload.get "parcels", payload.get "results", payload.get "data",
    if (payload.get "parcel").truthy then Js.arr [payload.get "parcel"] else Js.null]
  match options.findSome? (fun v =>
      match v with
      | Js.arr (x :: xs) => some (x :: xs)
      | _ => none) with
  | none => Js.null
  | some [] => Js.null
  | some (first :: _) =>
      jsOr (first.get "tracking_number") (jsOr ((first.get "tracking").get "tracking_number") Js.null)

/-- First non-nullish value of a list, else null. -/
def firstNonNullish : List Js → Js
  | [] => Js.null
  | v :: rest => if v.isNull then firstNonNullish rest else v

/-- The amended description of the extractor: take the first non-nullish value
among the keys parcels, results, data, else a singleton of a truthy parcel
field, else an empty list; a chosen value that is not an array becomes the
empty list and later keys are not consulted; then extract from the first
entry. -/
def pickAmendedSpec (payload : Js) : Js :=
  let chosen := firstNonNullish [payload.get "parcels", payload.get "results", payload.get "data"]
  let arrv := if chosen.isNull then
      (if (payload.get "parcel").truthy then Js.arr [payload.get "parcel"] else Js.arr [])
    else chosen
  match arrv.toList with
  | [] => Js.null
  | first :: _ =>
      jsOr (first.get "tracking_number") (jsOr ((first.get "tracking").get "tracking_number") Js.null)

/-- Reassembly array of Promise.all: slots indexed like the task list, filled
with each task value in the order the network answers arrive. -/
def fillSlots (vals : List Js) (arrival : List Nat) : List (Option Js) :=
  arrival.foldl (fun slots i => slots.set i (vals.get? i)) (List.replicate vals.length none)


/-- Environment where every lookup succeeds with an empty or null payload. -/
def envIdle : Env where
  searchOrders := fun _ => Except.ok []
  fetchOrderById := fun _ => Except.ok Js.null
  findParcels := fun _ => Except.ok Js.null
  trackByNumber := fun _ => Except.ok Js.null
  metaKeys := []

/-- A German order, as fetched by order number. -/
def orderDE : Js :=
  Js.obj [("id", Js.str "1234"), ("shipping", Js.obj [("country", Js.str "DE")])]

/-- Environment whose order fetch returns the German order. -/
def envIntl : Env where
  searchOrders := fun _ => Except.ok []
  fetchOrderById := fun _ => Except.ok orderDE
  findParcels := fun _ => Except.ok Js.null
  trackByNumber := fun _ => Except.ok Js.null
  metaKeys := []

/-- Search hit for the first phone candidate. -/
def order1Js : Js := Js.obj [("id", Js.str "A1"),
  ("meta_data", Js.arr [Js.obj [("key", Js.str "tn_key"), ("value", Js.str "T1")]])]

/-- Search hit for the third phone candidate. -/
def order3Js : Js := Js.obj [("id", Js.str "A3"),
  ("meta_data", Js.arr [Js.obj [("key", Js.str "tn_key"), ("value", Js.str "T3")]])]

/-- Full order behind the first candidate. -/
def order1Full : Js :=
  Js.obj [("id", Js.str "A1"), ("billing", Js.obj [("first_name", Js.str "Alice")])]

/-- Full order behind the third candidate. -/
def order3Full : Js :=
  Js.obj [("id", Js.str "A3"), ("billing", Js.obj [("first_name", Js.str "Chloe")])]

/-- Tracking payload of the first candidate. -/
def track1 : Js := Js.obj [("carrier_status", Js.str "delivered-1")]

/-- Tracking payload of the third candidate. -/
def track3 : Js := Js.obj [("carrier_status", Js.str "delivered-3")]

/-- Fan-out environment: the first and third phone candidates both match, with
different orders. -/
def envFan : Env where
  searchOrders := fun term =>
    if term = "0612345678" then Except.ok [order1Js]
    else if term = "000612345678" then Except.ok [order3Js]
    else Except.ok []
  fetchOrderById := fun id =>
    if id = "A1" then Except.ok order1Full
    else if id = "A3" then Except.ok order3Full
    else Except.ok Js.null
  findParcels := fun _ => Except.ok Js.null
  trackByNumber := fun tn =>
    if tn = "T1" then Except.ok track1
    else if tn = "T3" then Except.ok track3
    else Except.error ()
  metaKeys := ["tn_key"]

/-- Probe value of each candidate under the fan-out environment. -/
def fanVal (c : String) : Js :=
  if c = "0612345678" then resObj [] track1 (Js.str "T1") order1Full
  else if c = "000612345678" then resObj [] track3 (Js.str "T3") order3Full
  else Js.null

/-- Fan-out environment where the first candidate probe throws on its search,
while the second candidate resolves to a match. -/
def envErrFan : Env where
  searchOrders := fun term =>
    if term = "0612345678" then Except.error ()
    else if term = "+0612345678" then Except.ok [order3Js]
    else Except.ok []
  fetchOrderById := fun id => if id = "A3" then Except.ok order3Full else Except.ok Js.null
  findParcels := fun _ => Except.ok Js.null
  trackByNumber := fun tn => if tn = "T3" then Except.ok track3 else Except.error ()
  metaKeys := ["tn_key"]

/-- Environment for the order-number fallthrough: the order is domestic, the
parcel lookup yields nothing, the direct tracking lookup succeeds. -/
def envThrough : Env where
  searchOrders := fun _ => Except.ok []
  fetchOrderById := fun _ => Except.ok (Js.obj [("billing", Js.obj [("country", Js.str "FR")])])
  findParcels := fun _ => Except.ok (Js.obj [])
  trackByNumber := fun _ =>
    Except.ok (Js.obj [("destination", Js.str "FR"), ("carrier_status", Js.str "transit")])
  metaKeys := []

/-- Environment where the order-number step resolves completely: domestic
order, a parcel carrying a tracking number, then a tracking fetch. -/
def envTrace : Env where
  searchOrders := fun _ => Except.ok []
  fetchOrderById := fun _ => Except.ok (Js.obj [("billing", Js.obj [("country", Js.str "FR")])])
  findParcels := fun _ =>
    Except.ok (Js.obj [("parcels", Js.arr [Js.obj [("tracking_number", Js.str "LE123456789FR")]])])
  trackByNumber := fun _ => Except.ok (Js.obj [("carrier_status", Js.str "transit")])
  metaKeys := []

/-- A tracking payload with four status entries, the second lacking a carrier
message. -/
def statusPayload : Js :=
  Js.obj [("statuses", Js.arr
    [Js.obj [("carrier_message", Js.str "m1")],
     Js.obj [("status", Js.str "s2")],
     Js.obj [("carrier_message", Js.str "m3")],
     Js.obj [("carrier_message", Js.str "m4")]])]

/-! Helper lemmas about the effect semantics. -/

theorem M.bindM_pure {A B : Type} (a : A) (f : A → M B) : M.bindM (M.pureM a) f = f a := by
  show ([] ++ (f a).1, (f a).2) = f a
  simp

theorem M.bindM_snd_ok {A B : Type} (x : M A) (f : A → M B) (b : B)
    (h : (M.bindM x f).2 = Except.ok b) :
    ∃ a, x.2 = Except.ok a ∧ (f a).2 = Except.ok b := by
  obtain ⟨l, r⟩ := x
  cases r with
  | ok a => exact ⟨a, rfl, h⟩
  | error e => simp [M.bindM] at h

theorem M.bindM_fst_prefix {A B : Type} (x : M A) (f : A → M B) :
    ∃ s, (M.bindM x f).1 = x.1 ++ s := by
  obtain ⟨l, r⟩ := x
  cases r with
  | ok a => exact ⟨(f a).1, rfl⟩
  | error e => exact ⟨[], by simp [M.bindM]⟩

theorem collectTasks_eq {A : Type} (ts : List (M A)) :
    collectTasks ts = ((ts.map Prod.fst).flatten, Except.ok (ts.map Prod.snd)) := by
  induction ts with
  | nil => rfl
  | cons t ts ih => simp [collectTasks, settleTask, ih, M.bindM, M.pureM]

theorem promiseAll_eq {A : Type} (ts : List (M A)) :
    promiseAll ts = ((ts.map Prod.fst).flatten, allOk (ts.map Prod.snd)) := by
  simp [promiseAll, collectTasks_eq, M.bindM]

theorem allOk_map_ok {A : Type} (l : List A) : allOk (l.map Except.ok) = Except.ok l := by
  induction l with
  | nil => rfl
  | cons a l ih => simp [allOk, ih]

theorem allOk_error_of_mem {A : Type} (l : List (Except Unit A))
    (h : Except.error () ∈ l) : allOk l = Except.error () := by
  induction l with
  | nil => cases h
  | cons x rest ih =>
      cases x with
      | ok v =>
          have hr : Except.error () ∈ rest := by
            rcases List.mem_cons.mp h with h1 | h1
            · simp at h1
            · exact h1
          simp [allOk, ih hr]
      | error e => cases e; simp [allOk]

theorem allOk_ok_mem {A : Type} (l : List (Except Unit A)) (vs : List A)
    (h : allOk l = Except.ok vs) (v : A) (hv : v ∈ vs) : Except.ok v ∈ l := by
  induction l generalizing vs with
  | nil =>
      simp [allOk] at h
      subst h
      cases hv
  | cons x rest ih =>
      cases x with
      | ok w =>
          cases hr : allOk rest with
          | ok ws =>
              rw [allOk, hr] at h
              cases h
              rcases List.mem_cons.mp hv with h1 | h1
              · subst h1; exact List.mem_cons_self _ _
              · exact List.mem_cons_of_mem _ (ih ws hr h1)
          | error e => rw [allOk, hr] at h; cases h
      | error e => simp [allOk] at h

/-! Helper lemmas about Js values. -/

theorem Js.truthy_of_get {x : Js} {k : String} (h : (x.get k).truthy = true) : x.truthy = true := by
  cases x <;> simp_all [Js.get, Js.truthy]

theorem jsOr_truthy {a b : Js} (h : (jsOr a b).truthy = true) :
    a.truthy = true ∨ b.truthy = true := by
  unfold jsOr at h
  by_cases ha : a.truthy
  · exact Or.inl ha
  · simp [ha] at h; exact Or.inr h

/-! Reduction lemmas for the resolution chain. -/

theorem strOpt_some_of_ne {p : String} (hp : p ≠ "") : strOpt (some p) = some p := by
  simp [strOpt, hp]

theorem orderStep_none (env : Env) (ids : Identifiers) (logs : List String)
    (h : strOpt ids.order_number = none) : orderStep env ids logs = M.pureM none := by
  unfold orderStep; rw [h]

theorem emailStep_none (env : Env) (ids : Identifiers) (logs : List String)
    (h : strOpt ids.email = none) : emailStep env ids logs = M.pureM none := by
  unfold emailStep; rw [h]

theorem phoneStep_none (env : Env) (ids : Identifiers) (logs : List String)
    (h : strOpt ids.phone = none) : phoneStep env ids logs = M.pureM none := by
  unfold phoneStep; rw [h]

theorem trackingStep_none (env : Env) (ids : Identifiers) (logs : List String)
    (h : strOpt ids.tracking_number = none) : trackingStep env ids logs = M.pureM (notFoundRes logs) := by
  unfold trackingStep; rw [h]

theorem resolve_no_order (env : Env) (ids : Identifiers)
    (h : strOpt ids.order_number = none) :
    resolveTrackingLogic env ids = resolveAfterOrder env ids [] := by
  unfold resolveTrackingLogic
  rw [orderStep_none env ids [] h, M.bindM_pure]

/-! Lemmas about the Promise.all reassembly array. -/

theorem fillSlots_foldl_length (vals : List Js) (arrival : List Nat) :
    ∀ start : List (Option Js),
      (arrival.foldl (fun slots i => slots.set i (vals.get? i)) start).length = start.length := by
  induction arrival with
  | nil => intro start; rfl
  | cons i rest ih => intro start; rw [List.foldl_cons, ih]; simp

theorem fillSlots_foldl_getElem (vals : List Js) (arrival : List Nat)
    (harr : ∀ i ∈ arrival, i < vals.length) :
    ∀ start : List (Option Js), start.length = vals.length →
      ∀ j : Nat, j < vals.length →
        (arrival.foldl (fun slots i => slots.set i (vals.get? i)) start)[j]? =
          if j ∈ arrival then some (vals.get? j) else start[j]? := by
  induction arrival with
  | nil => intro start hlen j hj; simp
  | cons i rest ih =>
      intro start hlen j hj
      have hi : i < vals.length := harr i (List.mem_cons_self i rest)
      have harr2 : ∀ a ∈ rest, a < vals.length := fun a ha => harr a (List.mem_cons_of_mem i ha)
      rw [List.foldl_cons,
        ih harr2 (start.set i (vals.get? i)) (by simp [hlen]) j hj]
      by_cases hjr : j ∈ rest
      · simp [hjr, List.mem_cons]
      · simp only [hjr, if_false]
        by_cases hij : i = j
        · subst hij
          have hilen : i < start.length := by rw [hlen]; exact hi
          simp [List.getElem?_set, hilen, List.mem_cons]
        · have hjcons : ¬ j ∈ i :: rest := by
            rw [List.mem_cons]
            rintro (h | h)
            · exact hij h.symm
            · exact hjr h
          rw [if_neg hjcons]
          simp [List.getElem?_set, hij]

theorem fillSlots_perm (vals : List Js) (arrival : List Nat)
    (hperm : arrival.Perm (List.range vals.length)) :
    fillSlots vals arrival = vals.map some := by
  have hmem : ∀ j, j ∈ arrival ↔ j < vals.length := by
    intro j
    rw [hperm.mem_iff, List.mem_range]
  apply List.ext_getElem?
  intro j
  by_cases hj : j < vals.length
  · rw [fillSlots, fillSlots_foldl_getElem vals arrival (fun i hi => (hmem i).mp hi)
      (List.replicate vals.length none) (by simp) j hj]
    rw [if_pos ((hmem j).mpr hj)]
    rw [List.getElem?_map]
    rw [List.get?_eq_getElem?]
    cases hv : vals[j]? with
    | none => rw [List.getElem?_eq_none_iff] at hv; omega
    | some v => simp
  · have h1 : (fillSlots vals arrival).length ≤ j := by
      rw [fillSlots, fillSlots_foldl_length]
      simp; omega
    have h2 : (vals.map some).length ≤ j := by simp; omega
    rw [List.getElem?_eq_none h1, List.getElem?_eq_none h2]

theorem Js.isNull_eq_false {v : Js} (h : v ≠ Js.null) : v.isNull = false := by
  cases v <;> simp_all [Js.isNull]

/-! Claim theorems. -/

/-- C4: the phone candidate generator applied to 0612345678 yields a set
containing 0612345678, +0612345678, 000612345678, 33612345678 and
+33612345678; applied to 33612345678 it yields a set containing the local
form 0612345678. -/
theorem phone_candidates_examples :
    ("0612345678" ∈ genCandidates "0612345678" ∧
     "+0612345678" ∈ genCandidates "0612345678" ∧
     "000612345678" ∈ genCandidates "0612345678" ∧
     "33612345678" ∈ genCandidates "0612345678" ∧
     "+33612345678" ∈ genCandidates "0612345678") ∧
    "0612345678" ∈ genCandidates "33612345678" := by decide

/-- C7 counterexample: on a payload whose parcels key holds a number and whose
results key holds a non-empty list, the first plausible list (the results
list, as the specification reads) yields the tracking number X, but the source
extractor stops at the non-nullish non-list parcels value and returns null. -/
theorem pick_tracking_first_plausible_counterexample :
    pickTrackingNumberFromParcelsResponse (Js.obj [("parcels", Js.num 5),
      ("results", Js.arr [Js.obj [("tracking_number", Js.str "X")]])]) = Js.null ∧
    pickBySpecFirstPlausibleList (Js.obj [("parcels", Js.num 5),
      ("results", Js.arr [Js.obj [("tracking_number", Js.str "X")]])]) = Js.str "X" :=
  ⟨rfl, rfl⟩

/-- C7 amended: the extractor never throws (it is total) and equals the
amended description: take the first non-nullish value among the keys parcels,
results, data, else a singleton of a truthy parcel field, else the empty
list; a chosen value that is not an array becomes the empty list without
consulting later keys; extract from the first entry the direct
tracking_number field, else the nested tracking.tracking_number field, and
return null when the list is empty or both fields are falsy. -/
theorem pick_tracking_amended_equiv (payload : Js) :
    pickTrackingNumberFromParcelsResponse payload = pickAmendedSpec payload := by
  unfold pickTrackingNumberFromParcelsResponse pickAmendedSpec
  generalize payload.get "parcels" = a
  generalize payload.get "results" = b
  generalize payload.get "data" = c
  by_cases h1 : a = Js.null <;> by_cases h2 : b = Js.null <;> by_cases h3 : c = Js.null <;>
    simp [jsNullish, firstNonNullish, h1, h2, h3, Js.isNull_eq_false, Js.isNull]

/-- C5: with every identifier field absent or empty the engine performs no
call, throws nothing, and returns the not-found object, whose tracking_number
field is null. -/
theorem empty_identifiers_not_found (env : Env) (ids : Identifiers)
    (he : strOpt ids.email = none) (hp : strOpt ids.phone = none)
    (ho : strOpt ids.order_number = none) (ht : strOpt ids.tracking_number = none) :
    resolveTrackingLogic env ids = ([], Except.ok (notFoundRes [])) ∧
    (notFoundRes []).get "tracking_number" = Js.null := by
  refine ⟨?_, rfl⟩
  simp [resolveTrackingLogic, resolveAfterOrder, orderStep, emailStep, phoneStep, trackingStep,
    ho, he, hp, ht, M.bindM, M.pureM]

/-- C5 witness: the empty identifier set, with two fields given as empty
strings, resolves to the not-found object without any call. -/
theorem empty_identifiers_not_found_witness :
    resolveTrackingLogic envIdle ⟨some "", none, some "", none⟩ =
      ([], Except.ok (notFoundRes [])) ∧
    (notFoundRes []).get "tracking_number" = Js.null :=
  empty_identifiers_not_found envIdle ⟨some "", none, some "", none⟩ rfl rfl rfl rfl

/-- C2: when an order number is present and the fetched order carries a
country different from FR, the resolution returns the international result
after the single order fetch: the call trace holds no parcel lookup and no
tracking call. -/
theorem order_international_short_circuit (env : Env) (ids : Identifiers)
    (onum : String) (order : Js)
    (h1 : strOpt ids.order_number = some onum)
    (h2 : env.fetchOrderById onum = Except.ok order)
    (h3 : (jsCountry order).truthy = true)
    (h4 : (jsCountry order).eqStr "FR" = false) :
    resolveTrackingLogic env ids = ([Call.fetchOrder onum], Except.ok (intlRes [])) ∧
    (intlRes []).get "isInternational" = Js.bool true ∧
    (∀ t, Call.findParcels t ∉ [Call.fetchOrder onum]) ∧
    (∀ t, Call.track t ∉ [Call.fetchOrder onum]) := by
  have horder : order.truthy = true := by
    rcases jsOr_truthy (show (jsOr ((order.get "shipping").get "country")
        ((order.get "billing").get "country")).truthy = true from h3) with h | h
    · exact Js.truthy_of_get (Js.truthy_of_get h)
    · exact Js.truthy_of_get (Js.truthy_of_get h)
  have hchk : checkInternational order = true := by
    simp [checkInternational, horder, h3, h4]
  refine ⟨?_, rfl, ?_, ?_⟩
  · simp [resolveTrackingLogic, orderStep, h1, wooFetchOrderById, M.bindM, M.ofExcept, h2, hchk,
      M.pureM]
  · intro t; simp
  · intro t; simp

/-- C2 witness: an identifier set holding order number 1234 against the
environment returning the German order short-circuits to international with
exactly one fetch call. -/
theorem order_international_short_circuit_witness :
    resolveTrackingLogic envIntl ⟨none, none, some "1234", none⟩ =
      ([Call.fetchOrder "1234"], Except.ok (intlRes [])) ∧
    (intlRes []).get "isInternational" = Js.bool true :=
  have h := order_international_short_circuit envIntl ⟨none, none, some "1234", none⟩
    "1234" orderDE rfl rfl (by decide) (by decide)
  ⟨h.1, h.2.1⟩

/-! Shape lemmas: every result object carries exactly the logs it was built with. -/


theorem intlRes_logs (logs : List String) : (intlRes logs).get "logs" = jsLogs logs := rfl
theorem resObj_logs (logs : List String) (d tn w : Js) :
    (resObj logs d tn w).get "logs" = jsLogs logs := rfl
theorem procRes_logs (logs : List String) (w : Js) : (procRes logs w).get "logs" = jsLogs logs := rfl
theorem notFoundRes_logs (logs : List String) : (notFoundRes logs).get "logs" = jsLogs logs := rfl

theorem tryResolve_ok_shape (env : Env) (term : String) (logs : List String) (v : Js)
    (h : (tryResolveViaWooSearch env term logs).2 = Except.ok v) :
    v = Js.null ∨ v.get "logs" = jsLogs logs := by
  unfold tryResolveViaWooSearch at h
  obtain ⟨woo, hw, h⟩ := M.bindM_snd_ok _ _ _ h
  by_cases ha : (!woo.order_number.truthy) = true
  · rw [if_pos ha] at h
    left
    simpa [M.pureM] using h.symm
  · rw [if_neg ha] at h
    by_cases hb : (woo.country.truthy && !woo.country.eqStr "FR") = true
    · rw [if_pos hb] at h
      right
      have hv : intlRes logs = v := by simpa [M.pureM] using h
      rw [← hv]
      exact intlRes_logs logs
    · rw [if_neg hb] at h
      obtain ⟨wooOrderFull, hwf, h⟩ := M.bindM_snd_ok _ _ _ h
      obtain ⟨tn, htn, h⟩ := M.bindM_snd_ok _ _ _ h
      by_cases hc : tn.truthy = true
      · rw [if_pos hc] at h
        obtain ⟨tracking, htr, h⟩ := M.bindM_snd_ok _ _ _ h
        right
        have hv : resObj logs tracking tn wooOrderFull = v := by simpa [M.pureM] using h
        rw [← hv]
        exact resObj_logs logs tracking tn wooOrderFull
      · rw [if_neg hc] at h
        right
        have hv : procRes logs wooOrderFull = v := by simpa [M.pureM] using h
        rw [← hv]
        exact procRes_logs logs wooOrderFull

theorem orderStep_ok_shape (env : Env) (ids : Identifiers) (logs : List String) (r : Js)
    (h : (orderStep env ids logs).2 = Except.ok (some r)) :
    r.get "logs" = jsLogs logs := by
  unfold orderStep at h
  cases ho : strOpt ids.order_number with
  | none => rw [ho] at h; simp [M.pureM] at h
  | some onum =>
      rw [ho] at h
      obtain ⟨order, h2, h⟩ := M.bindM_snd_ok _ _ _ h
      by_cases hchk : checkInternational order = true
      · rw [if_pos hchk] at h
        have hv : some (intlRes logs) = some r := by simpa [M.pureM] using h
        cases hv
        exact intlRes_logs logs
      · rw [if_neg hchk] at h
        obtain ⟨parcels, h3, h⟩ := M.bindM_snd_ok _ _ _ h
        by_cases htn : (pickTrackingNumberFromParcelsResponse parcels).truthy = true
        · rw [if_pos htn] at h
          obtain ⟨tracking, h4, h⟩ := M.bindM_snd_ok _ _ _ h
          have hv : some (resObj logs tracking (pickTrackingNumberFromParcelsResponse parcels) order)
              = some r := by simpa [M.pureM] using h
          cases hv
          exact resObj_logs logs tracking _ order
        · rw [if_neg htn] at h
          simp [M.pureM] at h

theorem emailStep_ok_shape (env : Env) (ids : Identifiers) (logs : List String) (r : Js)
    (h : (emailStep env ids logs).2 = Except.ok (some r)) :
    r.get "logs" = jsLogs logs := by
  unfold emailStep at h
  cases he : strOpt ids.email with
  | none => rw [he] at h; simp [M.pureM] at h
  | some em =>
      rw [he] at h
      obtain ⟨v, hv, h⟩ := M.bindM_snd_ok _ _ _ h
      by_cases ht : v.truthy = true
      · rw [if_pos ht] at h
        have hvr : some v = some r := by simpa [M.pureM] using h
        cases hvr
        rcases tryResolve_ok_shape env em logs r hv with hnull | hlogs
        · rw [hnull] at ht; simp [Js.truthy] at ht
        · exact hlogs
      · rw [if_neg ht] at h
        simp [M.pureM] at h

theorem phoneStep_ok_shape (env : Env) (ids : Identifiers) (logs : List String) (r : Js)
    (h : (phoneStep env ids logs).2 = Except.ok (some r)) :
    r.get "logs" = jsLogs logs := by
  unfold phoneStep at h
  cases hp : strOpt ids.phone with
  | none => rw [hp] at h; simp [M.pureM] at h
  | some p =>
      rw [hp] at h
      obtain ⟨results, hres, h2⟩ := M.bindM_snd_ok _ _ _ h
      have hfind : results.find? (fun x => !x.isNull) = some r := by
        simpa [M.pureM] using h2
      have hmem := List.mem_of_find?_eq_some hfind
      have hpred := List.find?_some hfind
      rw [promiseAll_eq] at hres
      have hok := allOk_ok_mem _ _ hres r hmem
      rw [List.map_map] at hok
      obtain ⟨c, hc, hcr⟩ := List.mem_map.mp hok
      rcases tryResolve_ok_shape env c logs r hcr with hnull | hlogs
      · rw [hnull] at hpred; simp [Js.isNull] at hpred
      · exact hlogs

theorem trackingStep_ok_shape (env : Env) (ids : Identifiers) (logs : List String) (r : Js)
    (h : (trackingStep env ids logs).2 = Except.ok r) :
    r.get "logs" = jsLogs logs := by
  unfold trackingStep at h
  cases ht : strOpt ids.tracking_number with
  | none =>
      rw [ht] at h
      have hv : notFoundRes logs = r := by simpa [M.pureM] using h
      rw [← hv]
      exact notFoundRes_logs logs
  | some tIn =>
      rw [ht] at h
      obtain ⟨tracking, htr, h⟩ := M.bindM_snd_ok _ _ _ h
      by_cases hd : ((tracking.get "destination").truthy &&
          !(tracking.get "destination").eqStr "FR" &&
          !(tracking.get "destination").eqStr "FRANCE") = true
      · rw [if_pos hd] at h
        have hv : intlRes logs = r := by simpa [M.pureM] using h
        rw [← hv]
        exact intlRes_logs logs
      · rw [if_neg hd] at h
        have hv : resObj logs tracking (Js.str tIn) Js.null = r := by simpa [M.pureM] using h
        rw [← hv]
        exact resObj_logs logs tracking (Js.str tIn) Js.null

/-- C9 amended: the engine never appends to the trace: whatever identifier
set and environment, any result the resolution returns carries an empty logs
array, even when lookups were attempted. -/
theorem trace_always_empty (env : Env) (ids : Identifiers) (r : Js)
    (h : (resolveTrackingLogic env ids).2 = Except.ok r) :
    r.get "logs" = Js.arr [] := by
  have hmain : r.get "logs" = jsLogs [] := by
    unfold resolveTrackingLogic at h
    obtain ⟨r0, h0, h⟩ := M.bindM_snd_ok _ _ _ h
    cases r0 with
    | some r0v =>
        have hveq : r0v = r := by simpa [M.pureM] using h
        rw [← hveq]
        exact orderStep_ok_shape env ids [] r0v h0
    | none =>
        unfold resolveAfterOrder at h
        obtain ⟨r1, h1, h⟩ := M.bindM_snd_ok _ _ _ h
        cases r1 with
        | some r1v =>
            have hveq : r1v = r := by simpa [M.pureM] using h
            rw [← hveq]
            exact emailStep_ok_shape env ids [] r1v h1
        | none =>
            obtain ⟨r2, h2, h⟩ := M.bindM_snd_ok _ _ _ h
            cases r2 with
            | some r2v =>
                have hveq : r2v = r := by simpa [M.pureM] using h
                rw [← hveq]
                exact phoneStep_ok_shape env ids [] r2v h2
            | none => exact trackingStep_ok_shape env ids [] r h
  simpa [jsLogs] using hmain

/-- C9 counterexample: with order number 1234 the chain attempts three
lookups (order fetch, parcel lookup, tracking fetch) and returns a resolved
result, yet the trace attached to the result is empty, refuting that every
transition appends a line to the trace. -/
theorem trace_empty_counterexample :
    (resolveTrackingLogic envTrace ⟨none, none, some "1234", none⟩).1 =
      [Call.fetchOrder "1234", Call.findParcels "1234", Call.track "LE123456789FR"] ∧
    (resolveTrackingLogic envTrace ⟨none, none, some "1234", none⟩).2 =
      Except.ok (resObj [] (Js.obj [("carrier_status", Js.str "transit")])
        (Js.str "LE123456789FR") (Js.obj [("billing", Js.obj [("country", Js.str "FR")])])) ∧
    (resObj [] (Js.obj [("carrier_status", Js.str "transit")])
        (Js.str "LE123456789FR")
        (Js.obj [("billing", Js.obj [("country", Js.str "FR")])])).get "logs" = Js.arr [] :=
  ⟨rfl, rfl, rfl⟩

/-- C9 amended witness: the resolved result of the order-number scenario
carries the empty trace. -/
theorem trace_always_empty_witness :
    (resObj [] (Js.obj [("carrier_status", Js.str "transit")])
        (Js.str "LE123456789FR")
        (Js.obj [("billing", Js.obj [("country", Js.str "FR")])])).get "logs" = Js.arr [] :=
  trace_always_empty envTrace ⟨none, none, some "1234", none⟩
    (resObj [] (Js.obj [("carrier_status", Js.str "transit")])
      (Js.str "LE123456789FR") (Js.obj [("billing", Js.obj [("country", Js.str "FR")])])) rfl

/-- C10: when the order-number step fetches a domestic (or absent) order but
the parcel lookup yields no tracking number, the resolution does not stop: it
continues with the email, phone and tracking steps, and both the remaining
calls and the final result are exactly those of the rest of the chain, which
takes no argument from the fetched order: the order of step one is dropped
whenever a later step decides the outcome. -/
theorem order_step_fallthrough (env : Env) (ids : Identifiers) (onum : String)
    (order parcels : Js)
    (h1 : strOpt ids.order_number = some onum)
    (h2 : env.fetchOrderById onum = Except.ok order)
    (h3 : checkInternational order = false)
    (h4 : env.findParcels onum = Except.ok parcels)
    (h5 : (pickTrackingNumberFromParcelsResponse parcels).truthy = false) :
    resolveTrackingLogic env ids =
      ([Call.fetchOrder onum, Call.findParcels onum] ++ (resolveAfterOrder env ids []).1,
       (resolveAfterOrder env ids []).2) := by
  simp [resolveTrackingLogic, orderStep, h1, wooFetchOrderById, sendcloudFindParcelByOrderNumber,
    M.bindM, M.ofExcept, h2, h3, h4, h5, M.pureM]

/-- C10 witness: a domestic order without parcels falls through to the
tracking-number step, whose call and result decide the resolution. -/
theorem order_step_fallthrough_witness :
    resolveTrackingLogic envThrough ⟨none, none, some "42", some "TRK"⟩ =
      ([Call.fetchOrder "42", Call.findParcels "42"]
        ++ (resolveAfterOrder envThrough ⟨none, none, some "42", some "TRK"⟩ []).1,
       (resolveAfterOrder envThrough ⟨none, none, some "42", some "TRK"⟩ []).2) ∧
    (resolveAfterOrder envThrough ⟨none, none, some "42", some "TRK"⟩ []).1 =
      [Call.track "TRK"] :=
  ⟨order_step_fallthrough envThrough ⟨none, none, some "42", some "TRK"⟩ "42"
    (Js.obj [("billing", Js.obj [("country", Js.str "FR")])]) (Js.obj []) rfl rfl rfl rfl rfl,
   rfl⟩

theorem M.bindM_snd_eq {A B : Type} (x : M A) (f : A → M B) (a : A)
    (hx : x.2 = Except.ok a) : (M.bindM x f).2 = (f a).2 := by
  obtain ⟨l, rr⟩ := x
  cases rr with
  | ok b =>
      have hb : b = a := by simpa using hx
      subst hb
      rfl
  | error e => simp at hx

theorem M.bindM_snd_err {A B : Type} (x : M A) (f : A → M B)
    (hx : x.2 = Except.error ()) : (M.bindM x f).2 = Except.error () := by
  obtain ⟨l, rr⟩ := x
  cases rr with
  | ok b => simp at hx
  | error e => rfl

theorem wooFetchOrdersBySearch_eq (env : Env) (term : String) :
    wooFetchOrdersBySearch env term = ([Call.searchOrders term], env.searchOrders term) := by
  unfold wooFetchOrdersBySearch M.ofExcept
  cases h : env.searchOrders term <;> simp [M.bindM, h]

theorem wooLookup_fst (env : Env) (term : String) :
    (wooLookupBySearchTerm env term).1 = [Call.searchOrders term] := by
  unfold wooLookupBySearchTerm
  rw [wooFetchOrdersBySearch_eq]
  cases h : env.searchOrders term with
  | ok orders => cases orders <;> simp [M.bindM, M.pureM]
  | error e => simp [M.bindM]

theorem tryResolve_fst_head (env : Env) (term : String) (logs : List String) :
    ∃ s, (tryResolveViaWooSearch env term logs).1 = Call.searchOrders term :: s := by
  unfold tryResolveViaWooSearch
  obtain ⟨s2, hs2⟩ := M.bindM_fst_prefix (wooLookupBySearchTerm env term) _
  rw [hs2, wooLookup_fst]
  exact ⟨s2, rfl⟩

theorem afterOrder_no_email (env : Env) (ids : Identifiers) (logs : List String)
    (h : strOpt ids.email = none) :
    resolveAfterOrder env ids logs = M.bindM (phoneStep env ids logs) (fun r2 =>
      match r2 with
      | some r => M.pureM r
      | none => trackingStep env ids logs) := by
  unfold resolveAfterOrder
  rw [emailStep_none env ids logs h, M.bindM_pure]

/-- C8 amended: the candidate builder applied to an empty digit string yields
the set of the empty string and the bare prefixes, not the empty set; and for
a non-empty phone field whose digits-only form is empty, the engine calls the
order search with the empty term. -/
theorem digitless_phone_searches_empty_term (env : Env) (p : String)
    (hp : p ≠ "") (hd : digitsOnly p = "") :
    genCandidates p = ["", "+", "00"] ∧
    Call.searchOrders "" ∈ (resolveTrackingLogic env ⟨none, some p, none, none⟩).1 := by
  have hcand : genCandidates p = ["", "+", "00"] := by
    unfold genCandidates
    rw [hd]
    decide
  refine ⟨hcand, ?_⟩
  have hphost : Call.searchOrders "" ∈ (phoneStep env ⟨none, some p, none, none⟩ []).1 := by
    unfold phoneStep
    simp only [strOpt_some_of_ne hp]
    obtain ⟨s2, hs2⟩ :=
      M.bindM_fst_prefix (promiseAll ((genCandidates p).map (fun c => tryResolveViaWooSearch env c []))) _
    rw [hs2, promiseAll_eq]
    obtain ⟨s3, hs3⟩ := tryResolve_fst_head env "" []
    simp only [hcand, List.map_cons, List.map_nil, List.flatten]
    rw [hs3]
    simp
  rw [resolve_no_order env ⟨none, some p, none, none⟩ rfl,
    afterOrder_no_email env ⟨none, some p, none, none⟩ [] rfl]
  obtain ⟨s, hs⟩ := M.bindM_fst_prefix (phoneStep env ⟨none, some p, none, none⟩ []) _
  rw [hs]
  exact List.mem_append_left _ hphost

/-- C3 amended: a transport failure on any phone candidate probe is not
isolated: Promise.all rejects, so the whole resolution throws that error and
the chain does not continue past the phone step, whatever the other
candidates produced. -/
theorem phone_probe_failure_aborts_resolution (env : Env) (p : String) (hp : p ≠ "")
    (herr : ∃ c ∈ genCandidates p, (tryResolveViaWooSearch env c []).2 = Except.error ()) :
    (resolveTrackingLogic env ⟨none, some p, none, none⟩).2 = Except.error () := by
  have hps : (phoneStep env ⟨none, some p, none, none⟩ []).2 = Except.error () := by
    unfold phoneStep
    simp only [strOpt_some_of_ne hp]
    apply M.bindM_snd_err
    rw [promiseAll_eq]
    obtain ⟨c, hc, hcerr⟩ := herr
    apply allOk_error_of_mem
    rw [List.map_map]
    exact List.mem_map.mpr ⟨c, hc, hcerr⟩
  rw [resolve_no_order env ⟨none, some p, none, none⟩ rfl,
    afterOrder_no_email env ⟨none, some p, none, none⟩ [] rfl]
  exact M.bindM_snd_err _ _ hps

/-- C1: when every candidate probe returns a value, the fan-out waits for all
results: the Promise.all reassembly array is independent of the network
arrival order, and the engine returns the result of the first candidate in
generation order whose probe produced a non-null result. -/
theorem phone_fanout_generation_order_deterministic (env : Env) (p : String)
    (f : String → Js) (r : Js) (arrival : List Nat)
    (hp : p ≠ "")
    (hvals : ∀ c ∈ genCandidates p, (tryResolveViaWooSearch env c []).2 = Except.ok (f c))
    (hfound : ((genCandidates p).map f).find? (fun v => !v.isNull) = some r)
    (hperm : arrival.Perm (List.range (genCandidates p).length)) :
    fillSlots ((genCandidates p).map f) arrival = ((genCandidates p).map f).map some ∧
    (resolveTrackingLogic env ⟨none, some p, none, none⟩).2 = Except.ok r := by
  refine ⟨fillSlots_perm _ _ (by simpa using hperm), ?_⟩
  have hsnd : ((genCandidates p).map (fun c => tryResolveViaWooSearch env c [])).map Prod.snd
      = ((genCandidates p).map f).map Except.ok := by
    rw [List.map_map, List.map_map]
    apply List.map_congr_left
    intro c hc
    exact hvals c hc
  have hps : (phoneStep env ⟨none, some p, none, none⟩ []).2 = Except.ok (some r) := by
    unfold phoneStep
    simp only [strOpt_some_of_ne hp]
    rw [M.bindM_snd_eq _ _ ((genCandidates p).map f) ?hx]
    case hx =>
      rw [promiseAll_eq]
      show allOk _ = _
      rw [hsnd, allOk_map_ok]
    simp [M.pureM, hfound]
  rw [resolve_no_order env ⟨none, some p, none, none⟩ rfl,
    afterOrder_no_email env ⟨none, some p, none, none⟩ [] rfl]
  rw [M.bindM_snd_eq _ _ (some r) hps]
  rfl

/-- C1 witness: for phone 0612345678 only candidates one and three match;
with arrival order putting candidate three first, the reassembly is unchanged
and the engine returns the resolution of candidate one. -/
theorem phone_fanout_generation_order_deterministic_witness :
    fillSlots ((genCandidates "0612345678").map fanVal) [2, 0, 1, 3, 4] =
      ((genCandidates "0612345678").map fanVal).map some ∧
    (resolveTrackingLogic envFan ⟨none, some "0612345678", none, none⟩).2 =
      Except.ok (resObj [] track1 (Js.str "T1") order1Full) :=
  phone_fanout_generation_order_deterministic envFan "0612345678" fanVal
    (resObj [] track1 (Js.str "T1") order1Full) [2, 0, 1, 3, 4] (by decide)
    (by
      intro c hc
      have e : genCandidates "0612345678" =
          ["0612345678", "+0612345678", "000612345678", "33612345678", "+33612345678"] := by
        decide
      rw [e] at hc
      simp only [List.mem_cons, List.not_mem_nil, or_false] at hc
      rcases hc with rfl | rfl | rfl | rfl | rfl <;> rfl)
    rfl (by decide)

/-- C3 counterexample: the probe of the first phone candidate throws while
the probe of the second returns a non-null match, yet the whole resolution
throws instead of degrading the failed candidate to no-match and returning
the other result. -/
theorem phone_probe_failure_aborts_counterexample :
    (tryResolveViaWooSearch envErrFan "0612345678" []).2 = Except.error () ∧
    (tryResolveViaWooSearch envErrFan "+0612345678" []).2 =
      Except.ok (resObj [] track3 (Js.str "T3") order3Full) ∧
    (resObj [] track3 (Js.str "T3") order3Full).isNull = false ∧
    (resolveTrackingLogic envErrFan ⟨none, some "0612345678", none, none⟩).2 =
      Except.error () :=
  ⟨rfl, rfl, rfl, rfl⟩

/-- C3 amended witness: with the first candidate probe throwing, the
resolution of the phone identifier throws. -/
theorem phone_probe_failure_aborts_resolution_witness :
    (resolveTrackingLogic envErrFan ⟨none, some "0612345678", none, none⟩).2 =
      Except.error () :=
  phone_probe_failure_aborts_resolution envErrFan "0612345678" (by decide)
    ⟨"0612345678", by decide, rfl⟩

/-- C8 counterexample: the candidate builder yields a non-empty set on the
empty digit string, and the phone abc (non-empty, without any digit) makes
the engine search orders with the empty term. -/
theorem empty_term_search_counterexample :
    genCandidates "" ≠ [] ∧
    (resolveTrackingLogic envIdle ⟨none, some "abc", none, none⟩).1 =
      [Call.searchOrders "", Call.searchOrders "+", Call.searchOrders "00"] ∧
    Call.searchOrders "" ∈ (resolveTrackingLogic envIdle ⟨none, some "abc", none, none⟩).1 :=
  ⟨by decide, rfl, by decide⟩

/-- C8 amended witness: the phone abc yields the candidates of the empty
digit string and an order search with the empty term. -/
theorem digitless_phone_searches_empty_term_witness :
    genCandidates "abc" = ["", "+", "00"] ∧
    Call.searchOrders "" ∈ (resolveTrackingLogic envIdle ⟨none, some "abc", none, none⟩).1 :=
  digitless_phone_searches_empty_term envIdle "abc" (by decide) (by decide)

/-- C6: the normalized history never exceeds three entries; when the payload
carries a statuses array (restricted to non-null entries, where the bare
field accesses of the source are defined) the history is the reversed image
of the last three entries, hence newest-first for the oldest-first upstream
list; and every entry message prefers the carrier message, when truthy, over
the generic status. -/
theorem history_last3_newest_first (td : Js) :
    (historyList td).length ≤ 3 ∧
    (∀ l : List Js, td.get "statuses" = Js.arr l → (∀ e ∈ l, e.isNull = false) →
      historyList td = ((l.drop (l.length - 3)).map statusEntryMsg).reverse) ∧
    (∀ e : Js, statusEntryMsg e =
      " - " ++ (if (e.get "carrier_message").truthy then (e.get "carrier_message").toStr
                else (e.get "status").toStr)) := by
  refine ⟨?_, ?_, ?_⟩
  · unfold historyList
    cases htd : td.get "statuses" with
    | arr l =>
        by_cases h : l.length > 0
        · simp [h, List.length_drop]
          omega
        · simp [h]
    | null => simp
    | bool b => simp
    | num n => simp
    | str s => simp
    | obj fields => simp
  · intro l hl hobj
    unfold historyList
    rw [hl]
    by_cases h : l.length > 0
    · simp [h]
    · have hnil : l = [] := by
        cases l with
        | nil => rfl
        | cons a as => simp at h
      subst hnil
      simp
  · intro e
    unfold statusEntryMsg jsOr
    by_cases h : (e.get "carrier_message").truthy = true
    · rw [if_pos h, if_pos h]
    · rw [if_neg h, if_neg h]

/-- C6 witness: a four-entry statuses list yields the last three entries
newest-first, the second entry falling back to its generic status. -/
theorem history_last3_newest_first_witness :
    (historyList statusPayload).length ≤ 3 ∧
    historyList statusPayload = [" - m4", " - m3", " - s2"] :=
  have h := history_last3_newest_first statusPayload
  ⟨h.1, by
    rw [h.2.1 [Js.obj [("carrier_message", Js.str "m1")],
      Js.obj [("status", Js.str "s2")],
      Js.obj [("carrier_message", Js.str "m3")],
      Js.obj [("carrier_message", Js.str "m4")]] rfl (by decide)]
    rfl⟩
